import Mathlib

/-!
# Chat widget message reconciliation and session loading

A shallow embedding of the message-handling core of the `chatbot-ui`
repository:

* `sendMessage`, `deleteMessage`, `editMessage` - the three operations of
  the chat widget (`src/components/chat_widget.tsx`, the variant that
  checks `response.status === 200` and sends the shared-secret header).
  Each operation is a pure function of the pre-state list, the operation's
  arguments and the outcome of its single network call, returning the
  post-state list together with a flag recording whether a network call
  was issued.
* `deleteMessageLegacy` - the `deleteMessage` of the repository's first
  widget variant (lines 56-58 of the concatenated file), which filters the
  list immediately and performs no network call at all.
* `fetchMessages` - the session loader of `src/App.tsx` (`fetchMessages`),
  over a small JSON-value model of the Firestore document.
* `Step` / reachability - the atomic state patches of the widget, used to
  state the distinct-ids invariant.
-/

/-- A chat message, as in `types/interface.ts`.  At runtime the `by` field
holds the string `"user"` or `"bot"` (the TS type is a union of string
literal types); the field is called `by_` here because `by` is a Lean
keyword. -/
structure Message where
  id : String
  text : String
  by_ : String
deriving Repr, DecidableEq

/-- JS `String.prototype.trim`: strip leading and trailing whitespace. -/
def jsTrim (s : String) : String :=
  String.mk (((s.data.dropWhile Char.isWhitespace).reverse.dropWhile
    Char.isWhitespace).reverse)

/-- The body used for a successful `POST /api/v1/sendMessage`
(`response.data`): the fields the widget reads. -/
structure SendResponse where
  userMessageId : String
  botResponseId : String
  message : String
deriving Repr, DecidableEq

/-- The body used for a successful `POST /api/v1/editMessage`
(`response.data`): the fields the widget reads. -/
structure EditResponse where
  botResponseId : String
  message : String
deriving Repr, DecidableEq

/-- Outcome of the one network call an operation makes:
`ok r` - the promise resolved with HTTP status 200 and body `r`;
`otherStatus` - it resolved with some other status, so the
`response.status === 200` check fails and no state patch runs;
`netError` - the request threw, and the `catch` block only logs. -/
inductive NetOutcome (α : Type) where
  | ok (resp : α)
  | otherStatus
  | netError
deriving Repr, DecidableEq

/-- The optimistic insert of `sendMessage`:
`setMessages((prev) => [...prev, userMessage])` with
`userMessage = { id: tempId, text: input, by: "user" }`. -/
def sendOptimistic (input tempId : String) (l : List Message) : List Message :=
  l ++ [⟨tempId, input, "user"⟩]

/-- The success patch of `sendMessage`:
`prev.map((msg) => (msg.id === tempId ? { ...msg, id: response.data.userMessageId } : msg)).concat(botMessage)`
where `botMessage = { id: response.data.botResponseId, text: response.data.message, by: "bot" }`. -/
def sendReconcile (tempId : String) (r : SendResponse) (l : List Message) :
    List Message :=
  (l.map fun m => if m.id = tempId then { m with id := r.userMessageId } else m)
    ++ [⟨r.botResponseId, r.message, "bot"⟩]

/-- The success patch of `deleteMessage`:
`prev.filter((msg) => msg.id !== id)`. -/
def applyDelete (id : String) (l : List Message) : List Message :=
  l.filter fun m => m.id ≠ id

/-- The success patch of `editMessage`:
`prev.map((msg) => (msg.id === id ? { ...msg, text: newText } : msg)).concat({ id: response.data.botResponseId, text: botResponse, by: "bot" })`. -/
def applyEdit (id newText : String) (r : EditResponse) (l : List Message) :
    List Message :=
  (l.map fun m => if m.id = id then { m with text := newText } else m)
    ++ [⟨r.botResponseId, r.message, "bot"⟩]

/-- `sendMessage` of the chat widget.  `if (!input.trim()) return;` guards
the whole body, so an all-whitespace input issues no network call and
patches nothing.  Otherwise the optimistic user message with the
placeholder id `tempId` (`Date.now().toString()` in the source) is
appended first; the network call's outcome then decides the final patch.
The second component records whether the network call was issued. -/
def sendMessage (input tempId : String) (outcome : NetOutcome SendResponse)
    (l : List Message) : List Message × Bool :=
  if jsTrim input = "" then (l, false)
  else
    let afterOptimistic := sendOptimistic input tempId l
    match outcome with
    | .ok r => (sendReconcile tempId r afterOptimistic, true)
    | .otherStatus => (afterOptimistic, true)
    | .netError => (afterOptimistic, true)

/-- `deleteMessage` of the status-checking widget variant: the filter runs
only in the `response.status === 200` branch; a non-200 status or a thrown
request leaves the list unchanged (the error is only logged). -/
def deleteMessage (id : String) (outcome : NetOutcome Unit)
    (l : List Message) : List Message × Bool :=
  match outcome with
  | .ok _ => (applyDelete id l, true)
  | .otherStatus => (l, true)
  | .netError => (l, true)

/-- `deleteMessage` of the repository's first widget variant (lines 56-58):
`setMessages((prev) => prev.filter((msg) => msg.id !== id));` is the whole
body - the list is filtered immediately and no network call is made. -/
def deleteMessageLegacy (id : String) (l : List Message) :
    List Message × Bool :=
  (applyDelete id l, false)

/-- `editMessage` of the chat widget.  `if (!newText.trim()) return;`
guards the whole body; otherwise one network call is issued and the list
is patched only in the `response.status === 200` branch. -/
def editMessage (id newText : String) (outcome : NetOutcome EditResponse)
    (l : List Message) : List Message × Bool :=
  if jsTrim newText = "" then (l, false)
  else
    match outcome with
    | .ok r => (applyEdit id newText r l, true)
    | .otherStatus => (l, true)
    | .netError => (l, true)

section LoaderModel

/-- A JSON value as stored in the Firestore document, restricted to the
shapes the loader touches: strings and objects (field lists). -/
inductive JValue where
  | js (s : String)
  | jo (fields : List (String × JValue))

/-- Property lookup on an object's field list (`data.messages`). -/
def jlookup : List (String × JValue) → String → Option JValue
  | [], _ => none
  | (k, v) :: rest, key => if k = key then some v else jlookup rest key

/-- JS truthiness of a `JValue`: objects are always truthy, a string is
truthy iff it is non-empty (`data.messages || data`). -/
def truthy : JValue → Bool
  | .js s => s ≠ ""
  | .jo _ => true

/-- JS `Object.entries`: an object's own fields in insertion order; on a
(wrapped) string, index-character pairs. -/
def jentries : JValue → List (String × JValue)
  | .jo fields => fields
  | .js s => s.data.enum.map fun p => (toString p.1, JValue.js (String.mk [p.2]))

/-- Read the string field `key` of a record value (`msg.text`, `msg.by`).
A field that is absent or not a string is JS `undefined`; it is modelled
as `""`, which the claims never distinguish - they only concern documents
whose records carry string `text` and `by` fields. -/
def jstrField (v : JValue) (key : String) : String :=
  match v with
  | .jo fs =>
    match jlookup fs key with
    | some (.js s) => s
    | _ => ""
  | .js _ => ""

/-- One entry of the raw message mapping becomes a `Message`:
`{ id: timestamp, text: msg.text, by: msg.by }`. -/
def entryToMessage (kv : String × JValue) : Message :=
  { id := kv.1, text := jstrField kv.2 "text", by_ := jstrField kv.2 "by" }

/-- JS `parseInt(s)` in the decimal case: skip leading whitespace, read an
optional sign and then leading decimal digits; `none` is `NaN` (no digits).
The hexadecimal `0x` prefix branch of `parseInt` is irrelevant to the
stored timestamp keys and not modelled. -/
def parseIntJS (s : String) : Option Int :=
  let cs := s.data.dropWhile Char.isWhitespace
  let signAndDigits : Bool × List Char :=
    match cs with
    | '-' :: rest => (true, rest)
    | '+' :: rest => (false, rest)
    | _ => (false, cs)
  let ds := signAndDigits.2.takeWhile Char.isDigit
  if ds.isEmpty then none
  else
    let v : Nat := ds.foldl (fun acc c => acc * 10 + (c.toNat - 48)) 0
    some (if signAndDigits.1 then -(v : Int) else (v : Int))

/-- The sort comparator `(a, b) => parseInt(a.id) - parseInt(b.id)` read as
a `≤` test: when both ids parse, compare their values; when either is
`NaN` the comparator returns `NaN`, which the engine treats as `0`
(elements compare equal), so the test holds both ways. -/
def msgLe (a b : Message) : Bool :=
  match parseIntJS a.id, parseIntJS b.id with
  | some x, some y => decide (x ≤ y)
  | _, _ => true

/-- Stable insertion of one message into a sorted list. -/
def insertSorted (a : Message) : List Message → List Message
  | [] => [a]
  | b :: bs => if msgLe a b then a :: b :: bs else b :: insertSorted a bs

/-- `formattedMessages.sort((a, b) => parseInt(a.id) - parseInt(b.id))`:
`Array.prototype.sort` is a stable comparison sort, and any stable
comparison sort computes the same ordering for a consistent comparator
(all ids numeric); for an inconsistent one the engine's order is
unspecified, as is this model's. -/
def sortMessages : List Message → List Message
  | [] => []
  | a :: as => insertSorted a (sortMessages as)

/-- `fetchMessages` of `src/App.tsx` (lines 44-67), as a function of the
document snapshot: `none` is `!docSnap.exists()` (the loader then sets
`[]`); otherwise `data.messages || data` picks the raw mapping, each entry
becomes a `Message` keyed by its timestamp, and the list is sorted by
numeric id. -/
def fetchMessages (docSnap : Option (List (String × JValue))) :
    List Message :=
  match docSnap with
  | none => []
  | some data =>
    let rawMessages : JValue :=
      match jlookup data "messages" with
      | some v => if truthy v then v else .jo data
      | none => .jo data
    sortMessages ((jentries rawMessages).map entryToMessage)

/-- A stored `{text, by}` record, used to build well-formed document
bodies for the loader's contract. -/
structure StoredRecord where
  text : String
  by_ : String
deriving Repr, DecidableEq

/-- Encode a key-to-record mapping as the JSON object fields it is stored
as: each record becomes `{text: ..., by: ...}`. -/
def encodeEntries (es : List (String × StoredRecord)) :
    List (String × JValue) :=
  es.map fun kv => (kv.1, JValue.jo [("text", .js kv.2.text), ("by", .js kv.2.by_)])

end LoaderModel

/-! ## Helper lemmas -/

/-- Reconciling a placeholder id that occurs nowhere in the list leaves
the list unchanged. -/
theorem map_replaceId_eq_self (l : List Message) (tempId u : String)
    (h : tempId ∉ l.map Message.id) :
    (l.map fun m => if m.id = tempId then { m with id := u } else m) = l := by
  induction l with
  | nil => rfl
  | cons a as ih =>
    simp only [List.map_cons, List.mem_cons, not_or] at h
    have hne : ¬(a.id = tempId) := fun hh => h.1 hh.symm
    simp only [List.map_cons, if_neg hne, ih h.2]

/-- Editing the text of an id that occurs nowhere in the list leaves the
list unchanged. -/
theorem map_editText_eq_self (l : List Message) (id newText : String)
    (h : id ∉ l.map Message.id) :
    (l.map fun m => if m.id = id then { m with text := newText } else m) = l := by
  induction l with
  | nil => rfl
  | cons a as ih =>
    simp only [List.map_cons, List.mem_cons, not_or] at h
    have hne : ¬(a.id = id) := fun hh => h.1 hh.symm
    simp only [List.map_cons, if_neg hne, ih h.2]

/-- A key absent from the entries is not found by `jlookup`. -/
theorem jlookup_encodeEntries_eq_none (es : List (String × StoredRecord))
    (key : String) (h : key ∉ es.map Prod.fst) :
    jlookup (encodeEntries es) key = none := by
  induction es with
  | nil => rfl
  | cons a as ih =>
    simp only [List.map_cons, List.mem_cons, not_or] at h
    have hne : ¬(a.1 = key) := fun hh => h.1 hh.symm
    simp only [encodeEntries, List.map_cons, jlookup, if_neg hne]
    exact ih h.2

/-- Decoding an encoded `{text, by}` record recovers the record. -/
theorem entryToMessage_encodeEntries (es : List (String × StoredRecord)) :
    (encodeEntries es).map entryToMessage
      = es.map fun kv => ⟨kv.1, kv.2.text, kv.2.by_⟩ := by
  induction es with
  | nil => rfl
  | cons a as ih =>
    simp only [encodeEntries, List.map_cons] at ih ⊢
    exact congrArg _ ih

/-- Insertion keeps exactly the elements: `insertSorted a l` is a
permutation of `a :: l`. -/
theorem insertSorted_perm (a : Message) (l : List Message) :
    (insertSorted a l).Perm (a :: l) := by
  induction l with
  | nil => exact List.Perm.refl _
  | cons b bs ih =>
    by_cases h : msgLe a b
    · simp [insertSorted, h]
    · simp only [insertSorted, if_neg h]
      exact (List.Perm.cons b ih).trans (List.Perm.swap a b bs)

/-- The sort keeps exactly the elements of its input. -/
theorem sortMessages_perm (l : List Message) : (sortMessages l).Perm l := by
  induction l with
  | nil => exact List.Perm.refl _
  | cons a as ih =>
    exact (insertSorted_perm a (sortMessages as)).trans (List.Perm.cons a ih)

/-- The comparator test is total. -/
theorem msgLe_total (a b : Message) : msgLe a b = true ∨ msgLe b a = true := by
  unfold msgLe
  cases ha : parseIntJS a.id <;> cases hb : parseIntJS b.id <;> simp
  omega

/-- The comparator test is transitive through a message whose id parses. -/
theorem msgLe_trans (a b c : Message) (hb : (parseIntJS b.id).isSome)
    (h1 : msgLe a b = true) (h2 : msgLe b c = true) : msgLe a c = true := by
  unfold msgLe at h1 h2 ⊢
  cases ha : parseIntJS a.id <;> cases hbv : parseIntJS b.id <;>
    cases hc : parseIntJS c.id <;> simp_all
  omega

/-- Membership after insertion. -/
theorem mem_insertSorted (a x : Message) (l : List Message) :
    x ∈ insertSorted a l ↔ x = a ∨ x ∈ l := by
  constructor
  · intro h
    have := (insertSorted_perm a l).mem_iff.mp h
    simpa using this
  · intro h
    apply (insertSorted_perm a l).mem_iff.mpr
    simpa using h

/-- Inserting into a sorted list of messages with parsing ids keeps it
sorted. -/
theorem insertSorted_pairwise (a : Message) (l : List Message)
    (hall : ∀ m ∈ l, (parseIntJS m.id).isSome)
    (h : List.Pairwise (fun x y => msgLe x y = true) l) :
    List.Pairwise (fun x y => msgLe x y = true) (insertSorted a l) := by
  induction l with
  | nil => simp [insertSorted]
  | cons b bs ih =>
    have hb : (parseIntJS b.id).isSome := hall b (by simp)
    have hbs : ∀ m ∈ bs, (parseIntJS m.id).isSome :=
      fun m hm => hall m (by simp [hm])
    rcases List.pairwise_cons.mp h with ⟨hbrest, hrest⟩
    by_cases hab : msgLe a b
    · simp only [insertSorted, if_pos hab]
      refine List.pairwise_cons.mpr ⟨?_, h⟩
      intro y hy
      rcases List.mem_cons.mp hy with rfl | hy'
      · exact hab
      · exact msgLe_trans a b y hb hab (hbrest y hy')
    · simp only [insertSorted, if_neg hab]
      refine List.pairwise_cons.mpr ⟨?_, ih hbs hrest⟩
      intro y hy
      rcases (mem_insertSorted a y bs).mp hy with rfl | hy'
      · rcases msgLe_total y b with h' | h'
        · exact absurd h' hab
        · exact h'
      · exact hbrest y hy'

/-- The sort sorts, when every id parses. -/
theorem sortMessages_pairwise (l : List Message)
    (hall : ∀ m ∈ l, (parseIntJS m.id).isSome) :
    List.Pairwise (fun x y => msgLe x y = true) (sortMessages l) := by
  induction l with
  | nil => simp [sortMessages]
  | cons a as ih =>
    have has : ∀ m ∈ as, (parseIntJS m.id).isSome :=
      fun m hm => hall m (by simp [hm])
    have hsorted : ∀ m ∈ sortMessages as, (parseIntJS m.id).isSome :=
      fun m hm => has m ((sortMessages_perm as).mem_iff.mp hm)
    exact insertSorted_pairwise a (sortMessages as) hsorted (ih has)

/-! ## Atomic state patches and reachability

The widget mutates its list only from the completion handlers of its
operations, always by whole-list replacement, so an execution with any
number of overlapping in-flight operations is a sequence of these atomic
patches.  Failed or non-200 calls patch nothing and are identity steps.
The side conditions are the environment assumptions the specification
states: a placeholder id is unique within the session
(`Date.now().toString()`), and a server-assigned id is new to the
session. -/
inductive Step : List Message → List Message → Prop where
  | sendOpt (l : List Message) (input tempId : String)
      (hne : jsTrim input ≠ "") (hfresh : tempId ∉ l.map Message.id) :
      Step l (sendOptimistic input tempId l)
  | sendOk (l : List Message) (tempId : String) (r : SendResponse)
      (hu : r.userMessageId ∉ l.map Message.id)
      (hb : r.botResponseId ∉ l.map Message.id)
      (hub : r.botResponseId ≠ r.userMessageId) :
      Step l (sendReconcile tempId r l)
  | deleteOk (l : List Message) (id : String) :
      Step l (applyDelete id l)
  | editOk (l : List Message) (id newText : String) (r : EditResponse)
      (hne : jsTrim newText ≠ "") (hb : r.botResponseId ∉ l.map Message.id) :
      Step l (applyEdit id newText r l)

/-- The ids after reconciliation are the old ids with the placeholder
replaced by the server id. -/
theorem ids_map_replaceId (l : List Message) (tempId u : String) :
    ((l.map fun m => if m.id = tempId then { m with id := u } else m).map
        Message.id)
      = (l.map Message.id).map fun s => if s = tempId then u else s := by
  rw [List.map_map, List.map_map]
  apply List.map_congr_left
  intro m _
  by_cases hm : m.id = tempId <;> simp [hm]

/-- A text edit changes no id. -/
theorem ids_map_editText (l : List Message) (id newText : String) :
    ((l.map fun m => if m.id = id then { m with text := newText } else m).map
        Message.id)
      = l.map Message.id := by
  rw [List.map_map]
  apply List.map_congr_left
  intro m _
  by_cases hm : m.id = id <;> simp [hm]

/-- Replacing one value of a duplicate-free list by a fresh one keeps it
duplicate-free. -/
theorem nodup_map_replace (xs : List String) (tempId u : String)
    (hnodup : xs.Nodup) (hu : u ∉ xs) :
    (xs.map fun s => if s = tempId then u else s).Nodup := by
  apply List.Nodup.map_on _ hnodup
  intro x hx y hy hxy
  by_cases hxt : x = tempId <;> by_cases hyt : y = tempId
  · rw [hxt, hyt]
  · rw [if_pos hxt, if_neg hyt] at hxy
    exact absurd (hxy ▸ hy) hu
  · rw [if_neg hxt, if_pos hyt] at hxy
    exact absurd (hxy.symm ▸ hx) hu
  · rwa [if_neg hxt, if_neg hyt] at hxy

/-- A value fresh for the list and distinct from the replacement stays
outside the replaced list. -/
theorem not_mem_map_replace (xs : List String) (tempId u b : String)
    (hb : b ∉ xs) (hbu : b ≠ u) :
    b ∉ xs.map fun s => if s = tempId then u else s := by
  intro hmem
  rcases List.mem_map.mp hmem with ⟨s, hsmem, hseq⟩
  by_cases hst : s = tempId
  · rw [if_pos hst] at hseq
    exact hbu hseq.symm
  · rw [if_neg hst] at hseq
    exact hb (hseq ▸ hsmem)

/-- Each atomic patch preserves distinctness of the ids. -/
theorem step_ids_nodup {l l' : List Message} (hs : Step l l')
    (h : (l.map Message.id).Nodup) : (l'.map Message.id).Nodup := by
  cases hs with
  | sendOpt input tempId hne hfresh =>
    simp only [sendOptimistic, List.map_append, List.map_cons, List.map_nil]
    simp only [List.nodup_append, List.nodup_cons, List.nodup_nil,
      List.disjoint_singleton]
    exact ⟨h, by simp, hfresh⟩
  | sendOk tempId r hu hb hub =>
    simp only [sendReconcile, List.map_append, List.map_cons, List.map_nil]
    rw [ids_map_replaceId]
    simp only [List.nodup_append, List.nodup_cons, List.nodup_nil,
      List.disjoint_singleton]
    exact ⟨nodup_map_replace _ _ _ h hu, by simp,
      not_mem_map_replace _ _ _ _ hb hub⟩
  | deleteOk id =>
    simp only [applyDelete]
    exact ((List.filter_sublist l).map Message.id).nodup h
  | editOk id newText r hne hb =>
    simp only [applyEdit, List.map_append, List.map_cons, List.map_nil]
    rw [ids_map_editText]
    simp only [List.nodup_append, List.nodup_cons, List.nodup_nil,
      List.disjoint_singleton]
    exact ⟨h, by simp, hb⟩

/-! ## Claim theorems -/

/-- C1: for every message list and every input non-empty after trimming,
a successful send first appends the optimistic user message with the
placeholder id and, on the server's success response, replaces that
placeholder id with the server-returned `userMessageId` (position, text
and `by` unchanged) and appends exactly one bot message with the
server-returned `botResponseId` and reply text at the end; afterwards no
message in the list retains the pre-call placeholder id. -/
theorem sendMessage_success_reconciles (l : List Message)
    (input tempId : String) (r : SendResponse)
    (hne : jsTrim input ≠ "") (hfresh : tempId ∉ l.map Message.id)
    (hu : r.userMessageId ≠ tempId) (hb : r.botResponseId ≠ tempId) :
    sendMessage input tempId (.ok r) l
      = (sendReconcile tempId r (sendOptimistic input tempId l), true)
    ∧ (sendMessage input tempId (.ok r) l).1
      = l ++ [⟨r.userMessageId, input, "user"⟩,
              ⟨r.botResponseId, r.message, "bot"⟩]
    ∧ tempId ∉ (sendMessage input tempId (.ok r) l).1.map Message.id := by
  have h1 : sendMessage input tempId (.ok r) l
      = (sendReconcile tempId r (sendOptimistic input tempId l), true) := by
    simp [sendMessage, hne]
  have h2 : sendReconcile tempId r (sendOptimistic input tempId l)
      = l ++ [⟨r.userMessageId, input, "user"⟩,
              ⟨r.botResponseId, r.message, "bot"⟩] := by
    simp only [sendOptimistic, sendReconcile, List.map_append,
      map_replaceId_eq_self l tempId r.userMessageId hfresh,
      List.map_cons, List.map_nil, if_pos rfl, List.append_assoc,
      List.cons_append, List.nil_append, eq_self_iff_true, ite_true]
  refine ⟨h1, by rw [h1, h2], ?_⟩
  rw [h1, h2]
  simp only [List.map_append, List.map_cons, List.map_nil, List.mem_append,
    List.mem_cons, List.not_mem_nil, or_false, not_or]
  exact ⟨hfresh, fun hh => hu hh.symm, fun hh => hb hh.symm⟩

/-- C1 witness: the scenario of the spec - sending `"Hello"` over the list
`[{id "9"}]` with placeholder `"100"` and response
`{userMessageId "u1", botResponseId "b1", message "Hi there!"}`. -/
theorem sendMessage_success_reconciles_witness :
    sendMessage "Hello" "100" (.ok ⟨"u1", "b1", "Hi there!"⟩)
        [⟨"9", "earlier", "user"⟩]
      = (sendReconcile "100" ⟨"u1", "b1", "Hi there!"⟩
          (sendOptimistic "Hello" "100" [⟨"9", "earlier", "user"⟩]), true)
    ∧ (sendMessage "Hello" "100" (.ok ⟨"u1", "b1", "Hi there!"⟩)
        [⟨"9", "earlier", "user"⟩]).1
      = [⟨"9", "earlier", "user"⟩] ++
          [⟨"u1", "Hello", "user"⟩, ⟨"b1", "Hi there!", "bot"⟩]
    ∧ "100" ∉ (sendMessage "Hello" "100" (.ok ⟨"u1", "b1", "Hi there!"⟩)
        [⟨"9", "earlier", "user"⟩]).1.map Message.id :=
  sendMessage_success_reconciles [⟨"9", "earlier", "user"⟩] "Hello" "100"
    ⟨"u1", "b1", "Hi there!"⟩ (by decide) (by decide) (by decide) (by decide)

/-- C5: a send whose input is empty or whitespace-only issues no network
call (second component `false`) and leaves the list unchanged. -/
theorem sendMessage_blank_input_noop (l : List Message)
    (input tempId : String) (outcome : NetOutcome SendResponse)
    (h : jsTrim input = "") :
    sendMessage input tempId outcome l = (l, false) := by
  simp [sendMessage, h]

/-- C5 witness: `send("   ")` over a one-message list. -/
theorem sendMessage_blank_input_noop_witness :
    jsTrim "   " = ""
    ∧ sendMessage "   " "100" .netError [⟨"1", "hi", "user"⟩]
        = ([⟨"1", "hi", "user"⟩], false) :=
  ⟨by decide, sendMessage_blank_input_noop [⟨"1", "hi", "user"⟩] "   " "100"
    .netError (by decide)⟩

/-- C6: when the send network call fails, the optimistic user message
remains in the list with its placeholder id and is never reconciled, no
bot message is appended, and no other message changes. -/
theorem sendMessage_failure_keeps_placeholder (l : List Message)
    (input tempId : String) (h : jsTrim input ≠ "") :
    sendMessage input tempId .netError l
      = (l ++ [⟨tempId, input, "user"⟩], true)
    ∧ (⟨tempId, input, "user"⟩ : Message)
        ∈ (sendMessage input tempId .netError l).1 := by
  have h1 : sendMessage input tempId .netError l
      = (l ++ [⟨tempId, input, "user"⟩], true) := by
    simp [sendMessage, sendOptimistic, h]
  exact ⟨h1, by rw [h1]; simp⟩

/-- C6 witness: a failed send of `"Hello"` with placeholder `"100"`. -/
theorem sendMessage_failure_keeps_placeholder_witness :
    sendMessage "Hello" "100" .netError [⟨"9", "earlier", "user"⟩]
      = ([⟨"9", "earlier", "user"⟩] ++ [⟨"100", "Hello", "user"⟩], true)
    ∧ (⟨"100", "Hello", "user"⟩ : Message)
        ∈ (sendMessage "Hello" "100" .netError [⟨"9", "earlier", "user"⟩]).1 :=
  sendMessage_failure_keeps_placeholder [⟨"9", "earlier", "user"⟩] "Hello"
    "100" (by decide)

/-- C2 counterexample: in the repository's first widget variant,
`deleteMessage("1")` on the list `[{id "1"}]` removes the message although
no network call was issued at all (second component `false`), so the
claim that removal happens only after a success confirmation fails on
that variant. -/
theorem deleteMessageLegacy_removes_without_confirmation :
    (deleteMessageLegacy "1" [⟨"1", "hi", "user"⟩]).2 = false
    ∧ (deleteMessageLegacy "1" [⟨"1", "hi", "user"⟩]).1 = [] := by
  constructor <;> rfl

/-- C2 (amended to the status-checking variant, lines 215-228): delete
removes exactly the matching messages and only in the success branch; a
failed or non-200 call leaves the list unchanged. -/
theorem deleteMessage_confirmation_gated (id : String) (l : List Message) :
    (∀ m ∈ (deleteMessage id (.ok ()) l).1, m ∈ l ∧ m.id ≠ id)
    ∧ (∀ m ∈ l, m.id ≠ id → m ∈ (deleteMessage id (.ok ()) l).1)
    ∧ deleteMessage id .netError l = (l, true)
    ∧ deleteMessage id .otherStatus l = (l, true) := by
  refine ⟨?_, ?_, rfl, rfl⟩
  · intro m hm
    simp only [deleteMessage, applyDelete, List.mem_filter,
      decide_eq_true_eq] at hm
    exact hm
  · intro m hm hne
    simp only [deleteMessage, applyDelete, List.mem_filter,
      decide_eq_true_eq]
    exact ⟨hm, hne⟩

/-- C2 witness: deleting id `"1"` from a two-message list. -/
theorem deleteMessage_confirmation_gated_witness :
    (∀ m ∈ (deleteMessage "1" (.ok ())
        [⟨"1", "hi", "user"⟩, ⟨"2", "yo", "bot"⟩]).1,
      m ∈ [⟨"1", "hi", "user"⟩, ⟨"2", "yo", "bot"⟩] ∧ m.id ≠ "1")
    ∧ (∀ m ∈ [⟨"1", "hi", "user"⟩, ⟨"2", "yo", "bot"⟩], m.id ≠ "1" →
        m ∈ (deleteMessage "1" (.ok ())
          [⟨"1", "hi", "user"⟩, ⟨"2", "yo", "bot"⟩]).1)
    ∧ deleteMessage "1" .netError [⟨"1", "hi", "user"⟩, ⟨"2", "yo", "bot"⟩]
        = ([⟨"1", "hi", "user"⟩, ⟨"2", "yo", "bot"⟩], true)
    ∧ deleteMessage "1" .otherStatus [⟨"1", "hi", "user"⟩, ⟨"2", "yo", "bot"⟩]
        = ([⟨"1", "hi", "user"⟩, ⟨"2", "yo", "bot"⟩], true) :=
  deleteMessage_confirmation_gated "1" [⟨"1", "hi", "user"⟩, ⟨"2", "yo", "bot"⟩]

/-- No message other than the matching one is removed, so on a
duplicate-free list that contains the id the filter drops exactly one
element. -/
theorem applyDelete_length (id : String) (l : List Message)
    (hnodup : (l.map Message.id).Nodup) (hmem : id ∈ l.map Message.id) :
    (applyDelete id l).length = l.length - 1 := by
  induction l with
  | nil => simp at hmem
  | cons a as ih =>
    simp only [List.map_cons, List.nodup_cons] at hnodup
    simp only [List.map_cons, List.mem_cons] at hmem
    rcases hmem with heq | hmem
    · have hfa : ¬(decide (a.id ≠ id) = true) := by simp [heq]
      have hrest : applyDelete id as = as := by
        apply List.filter_eq_self.mpr
        intro m hm
        simp only [decide_eq_true_eq]
        intro hcontra
        exact hnodup.1 (by
          rw [← heq, ← hcontra]
          exact List.mem_map_of_mem Message.id hm)
      simp only [applyDelete, List.filter_cons, if_neg hfa] at hrest ⊢
      rw [hrest]
      simp
    · have hne : a.id ≠ id := by
        intro hcontra
        exact hnodup.1 (hcontra ▸ hmem)
      have hpos : 0 < as.length := by
        rcases List.mem_map.mp hmem with ⟨m, hm, _⟩
        exact List.length_pos.mpr (by rintro rfl; simp at hm)
      have hta : decide (a.id ≠ id) = true := by simp [hne]
      simp only [applyDelete, List.filter_cons, if_pos hta] at ih ⊢
      rw [List.length_cons, ih hnodup.2 hmem]
      simp only [List.length_cons]
      omega

/-- C3: on a success confirmation, delete removes exactly one entry - the
one whose id matches - so the length decreases by exactly 1; every other
message stays; a failed call leaves the list unchanged. -/
theorem deleteMessage_success_removes_one (id : String) (l : List Message)
    (hnodup : (l.map Message.id).Nodup) (hmem : id ∈ l.map Message.id) :
    (deleteMessage id (.ok ()) l).1.length = l.length - 1
    ∧ (∀ m ∈ l, m.id ≠ id → m ∈ (deleteMessage id (.ok ()) l).1)
    ∧ deleteMessage id .netError l = (l, true)
    ∧ deleteMessage id .otherStatus l = (l, true) := by
  refine ⟨applyDelete_length id l hnodup hmem, ?_, rfl, rfl⟩
  intro m hm hne
  simp only [deleteMessage, applyDelete, List.mem_filter, decide_eq_true_eq]
  exact ⟨hm, hne⟩

/-- C3 witness: deleting id `"1"` from a two-message duplicate-free
list. -/
theorem deleteMessage_success_removes_one_witness :
    (deleteMessage "1" (.ok ())
        [⟨"1", "hi", "user"⟩, ⟨"2", "yo", "bot"⟩]).1.length
      = ([⟨"1", "hi", "user"⟩, ⟨"2", "yo", "bot"⟩] : List Message).length - 1
    ∧ (∀ m ∈ [⟨"1", "hi", "user"⟩, ⟨"2", "yo", "bot"⟩], m.id ≠ "1" →
        m ∈ (deleteMessage "1" (.ok ())
          [⟨"1", "hi", "user"⟩, ⟨"2", "yo", "bot"⟩]).1)
    ∧ deleteMessage "1" .netError [⟨"1", "hi", "user"⟩, ⟨"2", "yo", "bot"⟩]
        = ([⟨"1", "hi", "user"⟩, ⟨"2", "yo", "bot"⟩], true)
    ∧ deleteMessage "1" .otherStatus [⟨"1", "hi", "user"⟩, ⟨"2", "yo", "bot"⟩]
        = ([⟨"1", "hi", "user"⟩, ⟨"2", "yo", "bot"⟩], true) :=
  deleteMessage_success_removes_one "1"
    [⟨"1", "hi", "user"⟩, ⟨"2", "yo", "bot"⟩] (by decide) (by decide)

/-- C4: a successful edit of an id present in the list updates the
matching message's text in place (its id, `by` field and position
unchanged, every other message untouched), appends exactly one bot
message with the server-returned reply at the end - so the length grows
by exactly 1 - and a failed call changes no text. -/
theorem editMessage_success_spec (id newText : String) (l : List Message)
    (r : EditResponse) (hne : jsTrim newText ≠ "")
    (hmem : id ∈ l.map Message.id) :
    (editMessage id newText (.ok r) l).1.length = l.length + 1
    ∧ (editMessage id newText (.ok r) l).1.getLast?
        = some ⟨r.botResponseId, r.message, "bot"⟩
    ∧ (∀ i : Fin l.length,
        (editMessage id newText (.ok r) l).1[(i : Nat)]?
          = some { l.get i with
              text := if (l.get i).id = id then newText else (l.get i).text })
    ∧ editMessage id newText .netError l = (l, true) := by
  have h0 : editMessage id newText (.ok r) l = (applyEdit id newText r l, true) := by
    simp [editMessage, hne]
  have hfail : editMessage id newText .netError l = (l, true) := by
    simp [editMessage, hne]
  refine ⟨?_, ?_, ?_, hfail⟩
  · rw [h0]
    simp [applyEdit]
  · rw [h0]
    exact List.getLast?_concat _
  · intro i
    rw [h0]
    simp only [applyEdit]
    rw [List.getElem?_append, if_pos (by simp [i.isLt])]
    rw [List.getElem?_map]
    rw [List.getElem?_eq_getElem i.isLt]
    simp only [Option.map_some, List.get_eq_getElem]
    by_cases hid : (l[(i : Nat)]).id = id <;> simp [hid]

/-- C4 witness: editing id `"1"` in a two-message list. -/
theorem editMessage_success_spec_witness :
    (editMessage "1" "new" (.ok ⟨"b2", "reply"⟩)
        [⟨"1", "old", "user"⟩, ⟨"2", "keep", "bot"⟩]).1.length
      = ([⟨"1", "old", "user"⟩, ⟨"2", "keep", "bot"⟩] : List Message).length + 1
    ∧ (editMessage "1" "new" (.ok ⟨"b2", "reply"⟩)
        [⟨"1", "old", "user"⟩, ⟨"2", "keep", "bot"⟩]).1.getLast?
      = some ⟨"b2", "reply", "bot"⟩
    ∧ (∀ i : Fin ([⟨"1", "old", "user"⟩, ⟨"2", "keep", "bot"⟩] : List Message).length,
        (editMessage "1" "new" (.ok ⟨"b2", "reply"⟩)
          [⟨"1", "old", "user"⟩, ⟨"2", "keep", "bot"⟩]).1[(i : Nat)]?
          = some { ([⟨"1", "old", "user"⟩, ⟨"2", "keep", "bot"⟩] : List Message).get i with
              text := if (([⟨"1", "old", "user"⟩, ⟨"2", "keep", "bot"⟩] : List Message).get i).id = "1"
                then "new"
                else (([⟨"1", "old", "user"⟩, ⟨"2", "keep", "bot"⟩] : List Message).get i).text })
    ∧ editMessage "1" "new" .netError [⟨"1", "old", "user"⟩, ⟨"2", "keep", "bot"⟩]
        = ([⟨"1", "old", "user"⟩, ⟨"2", "keep", "bot"⟩], true) :=
  editMessage_success_spec "1" "new" [⟨"1", "old", "user"⟩, ⟨"2", "keep", "bot"⟩]
    ⟨"b2", "reply"⟩ (by decide) (by decide)

/-- C10: a successful edit whose id occurs nowhere in the list leaves
every existing message unchanged yet still appends the bot reply, so the
length still grows by 1 although nothing was edited. -/
theorem editMessage_absent_id_appends_bot (id newText : String)
    (l : List Message) (r : EditResponse) (hne : jsTrim newText ≠ "")
    (habs : id ∉ l.map Message.id) :
    (editMessage id newText (.ok r) l).1
      = l ++ [⟨r.botResponseId, r.message, "bot"⟩]
    ∧ (editMessage id newText (.ok r) l).1.length = l.length + 1 := by
  have h0 : editMessage id newText (.ok r) l = (applyEdit id newText r l, true) := by
    simp [editMessage, hne]
  have h1 : applyEdit id newText r l = l ++ [⟨r.botResponseId, r.message, "bot"⟩] := by
    simp only [applyEdit, map_editText_eq_self l id newText habs]
  rw [h0, h1]
  simp

/-- C10 witness: editing the absent id `"404"` over a one-message list. -/
theorem editMessage_absent_id_appends_bot_witness :
    (editMessage "404" "new" (.ok ⟨"b2", "reply"⟩) [⟨"1", "old", "user"⟩]).1
      = [⟨"1", "old", "user"⟩] ++ [⟨"b2", "reply", "bot"⟩]
    ∧ (editMessage "404" "new" (.ok ⟨"b2", "reply"⟩)
        [⟨"1", "old", "user"⟩]).1.length
      = ([⟨"1", "old", "user"⟩] : List Message).length + 1 :=
  editMessage_absent_id_appends_bot "404" "new" [⟨"1", "old", "user"⟩]
    ⟨"b2", "reply"⟩ (by decide) (by decide)

/-- C7: the loader turns each stored entry into a `Message` whose id is
the entry's key and returns the list sorted ascending by the numeric
interpretation of the id, and a missing document yields the empty list
rather than an error. -/
theorem fetchMessages_sorted_spec (es : List (String × StoredRecord))
    (hkeys : ∀ k ∈ es.map Prod.fst, (parseIntJS k).isSome)
    (hnm : "messages" ∉ es.map Prod.fst) :
    fetchMessages none = []
    ∧ (fetchMessages (some (encodeEntries es))).Perm
        (es.map fun kv => ⟨kv.1, kv.2.text, kv.2.by_⟩)
    ∧ List.Pairwise (fun a b => msgLe a b = true)
        (fetchMessages (some (encodeEntries es))) := by
  have hraw : fetchMessages (some (encodeEntries es))
      = sortMessages ((encodeEntries es).map entryToMessage) := by
    simp only [fetchMessages, jlookup_encodeEntries_eq_none es "messages" hnm,
      jentries]
  have hconv : (encodeEntries es).map entryToMessage
      = es.map fun kv => ⟨kv.1, kv.2.text, kv.2.by_⟩ :=
    entryToMessage_encodeEntries es
  refine ⟨rfl, ?_, ?_⟩
  · rw [hraw, hconv]
    exact sortMessages_perm _
  · rw [hraw, hconv]
    apply sortMessages_pairwise
    intro m hm
    rcases List.mem_map.mp hm with ⟨kv, hkv, rfl⟩
    exact hkeys kv.1 (List.mem_map_of_mem Prod.fst hkv)

/-- C7 witness: the spec's example document, stored out of order. -/
theorem fetchMessages_sorted_spec_witness :
    (∀ k ∈ ([("1700000005", ⟨"hello", "bot"⟩), ("1700000000", ⟨"hi", "user"⟩)] :
        List (String × StoredRecord)).map Prod.fst, (parseIntJS k).isSome)
    ∧ fetchMessages none = []
    ∧ (fetchMessages (some (encodeEntries
        [("1700000005", ⟨"hello", "bot"⟩), ("1700000000", ⟨"hi", "user"⟩)]))).Perm
        (([("1700000005", ⟨"hello", "bot"⟩), ("1700000000", ⟨"hi", "user"⟩)] :
            List (String × StoredRecord)).map fun kv => ⟨kv.1, kv.2.text, kv.2.by_⟩)
    ∧ List.Pairwise (fun a b => msgLe a b = true)
        (fetchMessages (some (encodeEntries
          [("1700000005", ⟨"hello", "bot"⟩), ("1700000000", ⟨"hi", "user"⟩)]))) :=
  ⟨by decide, fetchMessages_sorted_spec
    [("1700000005", ⟨"hello", "bot"⟩), ("1700000000", ⟨"hi", "user"⟩)]
    (by decide) (by decide)⟩

/-- C8: the loader produces the same message list for the nested shape
`{messages: {<key>: {text, by}}}` and for the flat key-to-record mapping
at the document root, for equivalent content (whose keys, being
timestamps, do not include the literal key `"messages"`). -/
theorem fetchMessages_shape_agnostic (es : List (String × StoredRecord))
    (hnm : "messages" ∉ es.map Prod.fst) :
    fetchMessages (some [("messages", JValue.jo (encodeEntries es))])
      = fetchMessages (some (encodeEntries es)) := by
  have hnested : jlookup [("messages", JValue.jo (encodeEntries es))] "messages"
      = some (JValue.jo (encodeEntries es)) := by
    simp [jlookup]
  have hflat : jlookup (encodeEntries es) "messages" = none :=
    jlookup_encodeEntries_eq_none es "messages" hnm
  simp only [fetchMessages, hnested, hflat, truthy, if_pos, ite_true, jentries]

/-- C8 witness: the spec's example document in both shapes. -/
theorem fetchMessages_shape_agnostic_witness :
    ("messages" ∉ ([("1700000000", ⟨"hi", "user"⟩), ("1700000005", ⟨"hello", "bot"⟩)] :
        List (String × StoredRecord)).map Prod.fst)
    ∧ fetchMessages (some [("messages", JValue.jo (encodeEntries
        [("1700000000", ⟨"hi", "user"⟩), ("1700000005", ⟨"hello", "bot"⟩)]))])
      = fetchMessages (some (encodeEntries
        [("1700000000", ⟨"hi", "user"⟩), ("1700000005", ⟨"hello", "bot"⟩)])) :=
  ⟨by decide, fetchMessages_shape_agnostic
    [("1700000000", ⟨"hi", "user"⟩), ("1700000005", ⟨"hello", "bot"⟩)] (by decide)⟩

/-- C9: in every state reachable from a loaded session by any sequence of
the widget's atomic patches - covering any interleaving of overlapping
send, edit and delete operations - the ids of the in-memory messages are
pairwise distinct. -/
theorem reachable_ids_nodup (init s : List Message)
    (h : Relation.ReflTransGen Step init s)
    (h0 : (init.map Message.id).Nodup) : (s.map Message.id).Nodup := by
  induction h with
  | refl => exact h0
  | tail _ hstep ih => exact step_ids_nodup hstep ih

/-- C9 witness: the empty session after an optimistic send and its
reconciliation still has pairwise distinct ids. -/
theorem reachable_ids_nodup_witness :
    ((sendReconcile "100" ⟨"u1", "b1", "Hi there!"⟩
        (sendOptimistic "Hello" "100" [])).map Message.id).Nodup :=
  reachable_ids_nodup [] _
    (Relation.ReflTransGen.head
      (Step.sendOpt [] "Hello" "100" (by decide) (by decide))
      (Relation.ReflTransGen.single
        (Step.sendOk (sendOptimistic "Hello" "100" []) "100"
          ⟨"u1", "b1", "Hi there!"⟩ (by decide) (by decide) (by decide))))
    (by decide)
